import Mathlib

/-!
Verification development for the MURA supply-chain agent network.

The definitions below embed the web client of the repository
(src/unnamed/part_000 is web/app/page.tsx, src/unnamed/part_001 is
web/app/lib/api.ts, src/web/app/registry/page.tsx) as pure Lean
functions.  Components of the system that live in the backend and are
not part of the source tree (the agent registry, the trust model, the
negotiation bandit and the orchestrator pipeline) are modelled from the
specification; each such definition is marked in its doc comment.

Numbers carried as JavaScript floats (prices, rates, scores) are
embedded as exact rationals.
-/

namespace Mura

/-! ### String helpers of the web client -/

/-- Lower-casing of a string, character by character, embedding the
JavaScript toLowerCase call used on the backend compliance status in
runRealProcurement (src/unnamed/part_000). -/
def lowerStr (s : String) : String := String.mk (s.data.map Char.toLower)

/-- Boolean test that a character list starts with the pattern p. -/
def startsWithP : List Char → List Char → Bool
  | [], _ => true
  | _ :: _, [] => false
  | p :: ps, c :: cs => p == c && startsWithP ps cs

/-- Boolean contiguous-substring test, embedding the JavaScript
String.prototype.includes used by the web client. -/
def containsSub (p : List Char) : List Char → Bool
  | [] => startsWithP p []
  | c :: cs => startsWithP p (c :: cs) || containsSub p cs

/-- String.prototype.includes on Lean strings. -/
def strIncludes (s pat : String) : Bool := containsSub pat.data s.data

/-! ### Compliance verdict mapping (claim C9) -/

/-- Embeds the compliance verdict mapping in the completion handler of
runRealProcurement (src/unnamed/part_000, lines 267 to 275): the
backend compliance_status is lower-cased; a status containing warning
or review is surfaced as warning, else one containing fail or block as
failed, and anything else — including an absent status — as passed. -/
def complianceVerdict (status : Option String) : String :=
  match status with
  | none => "passed"
  | some st =>
    let l := lowerStr st
    if strIncludes l "warning" || strIncludes l "review" then "warning"
    else if strIncludes l "fail" || strIncludes l "block" then "failed"
    else "passed"

/-! ### Agent network state of the web client (claim C10) -/

/-- Embeds the frontend Agent record shown in the network view
(src/unnamed/part_000): id, agent type, display name, status and the
current thought bubble. -/
structure FrontAgent where
  id : String
  type : String
  name : String
  status : String
  thought : Option String
  deriving DecidableEq, Repr

/-- The two React state pieces mutated by addAgent
(src/unnamed/part_000): the agents list and the discoveredAgents id
set.  The set is kept as a list in insertion order, which is how a
JavaScript Set iterates. -/
structure NetworkState where
  agents : List FrontAgent
  discovered : List String
  deriving DecidableEq, Repr

/-- Embeds addAgent (src/unnamed/part_000, lines 122 to 133): the id is
added to the discovered set only if the set does not already have it,
and the agent is appended to the agents list only if no agent with the
same id is already found in it. -/
def addAgent (a : FrontAgent) (s : NetworkState) : NetworkState :=
  { discovered :=
      if a.id ∈ s.discovered then s.discovered else s.discovered ++ [a.id]
    agents :=
      if a.id ∈ s.agents.map (fun b => b.id) then s.agents else s.agents ++ [a] }

/-- Embeds updateAgent (src/unnamed/part_000, lines 135 to 137).  The
updates passed by runRealProcurement set only the status and thought
fields, never the id. -/
def updateAgent (i : String) (st : String) (th : Option String)
    (s : NetworkState) : NetworkState :=
  { s with agents := s.agents.map (fun a =>
      if a.id = i then { a with status := st, thought := th } else a) }

/-- Embeds the agent map in the completion handler of
runRealProcurement (src/unnamed/part_000, lines 256 to 260): every
agent becomes success unless it was in error or warning state, and the
thought bubble is cleared. -/
def completeMark (s : NetworkState) : NetworkState :=
  { s with agents := s.agents.map (fun a =>
      { a with
        status :=
          if a.status = "error" then "error"
          else if a.status = "warning" then "warning" else "success"
        thought := none }) }

/-- Embeds the agent map in the error handler of runRealProcurement
(src/unnamed/part_000, line 303): all agents return to idle with no
thought. -/
def idleMark (s : NetworkState) : NetworkState :=
  { s with agents := s.agents.map (fun a =>
      { a with status := "idle", thought := none }) }

/-- The orchestrator node present from the start
(src/unnamed/part_000, initialAgents). -/
def orchestratorAgent : FrontAgent :=
  ⟨"orchestrator", "orchestrator", "MURA Core", "idle", none⟩

/-- The initial network state: only the orchestrator, both in the
agents list and in the discovered set. -/
def initialNetwork : NetworkState := ⟨[orchestratorAgent], ["orchestrator"]⟩

/-- The state installed at the start of runRealProcurement
(src/unnamed/part_000, lines 166 to 168). -/
def runStartNetwork : NetworkState :=
  ⟨[⟨"orchestrator", "orchestrator", "MURA Core", "thinking",
      some "Processing request..."⟩], ["orchestrator"]⟩

/-- The network states reachable by the web client: from the initial
state through the state updates the page performs (run start, reset,
addAgent, updateAgent, the completion map and the error map). -/
inductive Reachable : NetworkState → Prop
  | init : Reachable initialNetwork
  | runStart {s} : Reachable s → Reachable runStartNetwork
  | reset {s} : Reachable s → Reachable initialNetwork
  | add {s} (a) : Reachable s → Reachable (addAgent a s)
  | update {s} (i st th) : Reachable s → Reachable (updateAgent i st th s)
  | complete {s} : Reachable s → Reachable (completeMark s)
  | idle {s} : Reachable s → Reachable (idleMark s)

/-- Coherence of the two state pieces: agent ids are duplicate free and
the discovered set holds exactly the ids of the agents list. -/
def coherent (s : NetworkState) : Prop :=
  (s.agents.map (fun b => b.id)).Nodup ∧ s.discovered.Nodup ∧
  (∀ i, i ∈ s.agents.map (fun b => b.id) ↔ i ∈ s.discovered)

/-! ### Backend result and the recommendation card (claim C3) -/

/-- JavaScript x or-else d on an optional number: an absent value and 0
are falsy, so both fall back to the default. -/
def jsOrNum (x : Option ℚ) (d : ℚ) : ℚ :=
  match x with
  | none => d
  | some v => if v = 0 then d else v

/-- JavaScript x or-else d on an optional string: an absent value and
the empty string are falsy. -/
def jsOrStr (x : Option String) (d : String) : String :=
  match x with
  | none => d
  | some v => if v = "" then d else v

/-- One entry of recommendation.all_options in the backend result, with
the fields the completion handler reads.  Per the SDK contract each
option carries a total landed cost and a shipping cost as distinct
values. -/
structure BackendOption where
  supplier_name : Option String
  total_cost : ℚ
  shipping_cost : ℚ
  total_days : ℚ
  deriving DecidableEq, Repr

/-- The recommendation object of the backend result, with the fields
the completion handler reads (src/unnamed/part_000, lines 266 to
287). -/
structure BackendRecommendation where
  recommended_supplier : Option String
  compliance_status : Option String
  critical_path_days : Option ℚ
  recommendation_reason : Option String
  all_options : List BackendOption
  deriving DecidableEq, Repr

/-- The recommendation card state the page displays
(src/unnamed/part_000, lines 112 to 119 and ResultCard). -/
structure DisplayRecommendation where
  supplier : String
  total : ℚ
  shipping : ℚ
  days : ℚ
  compliance : String
  reasoning : String
  deriving DecidableEq, Repr

/-- Embeds the setRecommendation call of the completion handler
(src/unnamed/part_000, lines 266 to 287): best is allOptions[0], and
the total field is populated from best.shipping_cost. -/
def setRecommendationOf (rec : BackendRecommendation) : DisplayRecommendation :=
  let best := rec.all_options.head?
  { supplier := jsOrStr (best.bind (fun o => o.supplier_name))
      (jsOrStr rec.recommended_supplier "Best Supplier")
    total := jsOrNum (best.map (fun o => o.shipping_cost)) 0
    shipping := jsOrNum (best.map (fun o => o.shipping_cost)) 0
    days := jsOrNum (best.map (fun o => o.total_days))
      (jsOrNum rec.critical_path_days 7)
    compliance := complianceVerdict rec.compliance_status
    reasoning := jsOrStr rec.recommendation_reason
      "Selected based on optimal balance." }

/-- A concrete backend recommendation whose best option costs 105 in
total, of which 12 is shipping. -/
def c3Option : BackendOption := ⟨some "DroneParts EU", 105, 12, 5⟩

/-- The surrounding recommendation object for the C3 input. -/
def c3Rec : BackendRecommendation :=
  ⟨some "droneparts-eu", some "passed", some 7,
    some "cheapest compliant option", [c3Option]⟩

/-! ### Streaming step log (claim C6) -/

/-- A log entry as appended by addLog (src/unnamed/part_000, lines 139
to 157), without the wall-clock id and timestamp fields, which carry no
ordering information beyond the list position. -/
structure LogRecord where
  agent : String
  message : String
  type : String
  details : Option String
  deriving DecidableEq, Repr

/-- The agentNames display table of addLog (src/unnamed/part_000,
lines 140 to 147); unknown keys display as themselves. -/
def agentDisplayName (a : String) : String :=
  if a = "orchestrator" then "MURA Orchestrator"
  else if a = "supplier-1" then "Supplier Agent 1"
  else if a = "supplier-2" then "Supplier Agent 2"
  else if a = "supplier-3" then "Supplier Agent 3"
  else if a = "logistics" then "Logistics Agent"
  else if a = "compliance" then "Compliance Agent"
  else a

/-- The node descriptor getAgentInfo produces. -/
structure AgentInfo where
  id : String
  type : String
  name : String
  deriving DecidableEq, Repr

/-- Removal of a leading supplier- tag, embedding the replace call of
getAgentInfo. -/
def stripLeadSupplier (s : String) : String :=
  if startsWithP "supplier-".data s.data then String.mk (s.data.drop 9) else s

/-- Embeds getAgentInfo (src/unnamed/part_000, lines 50 to 92): backend
agent names map to frontend node descriptors; the supplier counter used
to name unknown suppliers is threaded explicitly. -/
def getAgentInfo (agentName : String) (count : ℕ) : AgentInfo × ℕ :=
  let lower := lowerStr agentName
  if strIncludes lower "orchestrator" || strIncludes lower "mura" ||
      lower = "orchestrator" then
    (⟨"orchestrator", "orchestrator", "MURA Core"⟩, count)
  else if strIncludes lower "logistics" || lower = "logistics" then
    (⟨"logistics", "logistics", "Logistics Agent"⟩, count)
  else if strIncludes lower "compliance" || lower = "compliance" then
    (⟨"compliance", "compliance", "Compliance Agent"⟩, count)
  else if lower = "supplier-none" then
    (⟨"supplier-none", "supplier", "No Suppliers"⟩, count)
  else if strIncludes lower "supplier" || strIncludes lower "droneparts" ||
      strIncludes lower "shenzhen" || strIncludes lower "techparts" then
    let supplierId := stripLeadSupplier agentName
    if strIncludes lower "droneparts" then
      (⟨"supplier-" ++ supplierId, "supplier", "DroneParts EU"⟩, count)
    else if strIncludes lower "shenzhen" then
      (⟨"supplier-" ++ supplierId, "supplier", "ShenzhenTech"⟩, count)
    else if strIncludes lower "techparts" then
      (⟨"supplier-" ++ supplierId, "supplier", "TechParts Global"⟩, count)
    else
      (⟨"supplier-" ++ supplierId, "supplier",
        "Supplier " ++ toString (count + 1)⟩, count + 1)
  else
    (⟨"orchestrator", "orchestrator", "MURA Core"⟩, count)

/-- The server-sent events the streaming endpoint delivers to the read
loop of runRealProcurement (src/unnamed/part_000, lines 208 to 292):
step records, a final complete event carrying the result, or an error
event. -/
inductive StreamEvent
  | step (agent phase message status : String) (details : Option String)
  | complete (rec : BackendRecommendation)
  | error (msg : String)
  deriving DecidableEq, Repr

/-- Status to log type mapping of the step handler
(src/unnamed/part_000, lines 219 to 232): error, warning and success
map through, anything else logs as thinking. -/
def logTypeOf (status : String) : String :=
  if status = "error" then "error"
  else if status = "warning" then "warning"
  else if status = "success" then "success"
  else "thinking"

/-- The log record a step event defers through addLog: the agent id is
mapped by getAgentInfo and then displayed through the agentNames table,
the status through the log type mapping; the supplier counter the event
leaves behind is returned with it. -/
def stepLogRecord (agent message status : String) (details : Option String)
    (count : ℕ) : LogRecord × ℕ :=
  let p := getAgentInfo agent count
  (⟨agentDisplayName p.1.id, message, logTypeOf status, details⟩, p.2)

/-- The completion banner the complete handler appends synchronously
(src/unnamed/part_000, line 262). -/
def bannerRecord : LogRecord :=
  ⟨agentDisplayName "orchestrator", "Procurement analysis complete!",
    "success", none⟩

/-- The client state of the SSE read loop: the log list, the FIFO queue
of deferred addLog calls, and the supplier counter.  Each step handler
schedules its addLog through setTimeout with the same 50 millisecond
delay (src/unnamed/part_000, lines 238 to 250), and equal-delay timers
fire in scheduling order, so the deferred records form a first-in
first-out queue. -/
structure ClientLoopState where
  logs : List LogRecord
  pending : List LogRecord
  count : ℕ
  deriving DecidableEq, Repr

/-- Embeds the handling of one server-sent event
(src/unnamed/part_000, lines 208 to 296): a step event defers its log
record through setTimeout, so the record joins the timer queue; a
complete event appends the banner synchronously; an error event throws,
but the throw lands in the inner parse catch (line 293), which only
writes to the console — no log record is appended and the loop keeps
going. -/
def handleEvent (e : StreamEvent) (s : ClientLoopState) : ClientLoopState :=
  match e with
  | .step agent _ message status details =>
      ⟨s.logs,
        s.pending ++ [(stepLogRecord agent message status details s.count).1],
        (stepLogRecord agent message status details s.count).2⟩
  | .complete _ => ⟨s.logs ++ [bannerRecord], s.pending, s.count⟩
  | .error _ => s

/-- Firing of up to n queued timers: each moves the front deferred
record to the end of the log. -/
def fireTimers : ℕ → ClientLoopState → ClientLoopState
  | 0, s => s
  | n + 1, s =>
    match s.pending with
    | [] => s
    | r :: ps => fireTimers n ⟨s.logs ++ [r], ps, s.count⟩

/-- Embeds the SSE read loop of runRealProcurement: events are handled
in arrival order; between events any number of queued timers may fire —
the schedule list abstracts the wall-clock timing — and once the stream
is exhausted every still-pending timer fires. -/
def runClientLoop : List StreamEvent → List ℕ → ClientLoopState → ClientLoopState
  | [], _, s => fireTimers s.pending.length s
  | e :: rest, sched, s =>
      runClientLoop rest sched.tail (fireTimers (sched.headD 0) (handleEvent e s))

/-- The deferred step-log records a list of events emits, in emission
order, threading the supplier counter; complete and error events defer
nothing. -/
def stepRecordsOf : List StreamEvent → ℕ → List LogRecord
  | [], _ => []
  | .step a _ msg st d :: rest, c =>
      (stepLogRecord a msg st d c).1 ::
        stepRecordsOf rest (stepLogRecord a msg st d c).2
  | .complete _ :: rest, c => stepRecordsOf rest c
  | .error _ :: rest, c => stepRecordsOf rest c

/-- The initial client loop state: empty log, no pending timer. -/
def initialLoopState : ClientLoopState := ⟨[], [], 0⟩

/-- The C6 counterexample stream: an SSE error event followed by a
further step event. -/
def c6BadStream : List StreamEvent :=
  [StreamEvent.error "boom",
    StreamEvent.step "logistics" "logistics" "Planning route" "success" none]

/-- The C6 witness stream: two steps and the final complete event. -/
def c6GoodStream : List StreamEvent :=
  [StreamEvent.step "supplier-droneparts-eu" "quoting" "Quote received"
      "success" none,
    StreamEvent.step "logistics" "logistics" "Route planned" "success" none,
    StreamEvent.complete ⟨none, none, none, none, []⟩]


/-! ### Registry page display of trust profiles (claim C8) -/

/-- Embeds the Certification wire record (src/unnamed/part_001,
lines 13 to 17). -/
structure CertificationTS where
  authority : String
  certification : String
  cert_id : String
  deriving DecidableEq, Repr

/-- Embeds the TrustProfile wire record of the web client
(src/unnamed/part_001, lines 19 to 27).  The record carries
dispute_rate as a field of its own, next to the transaction counters,
and carries no disputes counter. -/
structure TrustProfileTS where
  verified : Bool
  trust_level : String
  reputation_score : ℚ
  total_transactions : ℕ
  successful_transactions : ℕ
  dispute_rate : ℚ
  peer_attestations : ℕ
  deriving DecidableEq, Repr

/-- Embeds the Agent wire record fields agentToDisplay reads
(src/unnamed/part_001, lines 29 to 41). -/
structure AgentTS where
  agent_id : String
  name : String
  role : String
  description : Option String
  region : String
  country : Option String
  capabilities : Option (List String)
  avg_lead_time_days : Option ℚ
  certifications : Option (List CertificationTS)
  trust : Option TrustProfileTS
  deriving DecidableEq, Repr

/-- The display record the registry page builds
(src/web/app/registry/page.tsx, lines 35 to 56). -/
structure DisplayAgentRec where
  id : String
  name : String
  type : String
  description : String
  capabilities : List String
  regions : List String
  country : String
  certifications : List CertificationTS
  trustLevel : String
  reputationScore : ℚ
  totalTransactions : ℕ
  successfulTransactions : ℕ
  disputeRate : ℚ
  peerAttestations : ℕ
  verified : Bool
  responseTime : String
  deriving DecidableEq, Repr

/-- Upper-casing of a string, embedding JavaScript toUpperCase. -/
def upperStr (s : String) : String := String.mk (s.data.map Char.toUpper)

/-- JavaScript x or-else d on an optional natural number: an absent
value and 0 are falsy. -/
def jsOrNat (x : Option ℕ) (d : ℕ) : ℕ :=
  match x with
  | none => d
  | some v => if v = 0 then d else v

/-- Embeds roleToType (src/web/app/registry/page.tsx, lines 59 to
67). -/
def roleToType (role : String) : String :=
  let u := upperStr role
  if u = "SUPPLIER" then "supplier"
  else if u = "LOGISTICS" then "logistics"
  else if u = "COMPLIANCE" then "compliance"
  else if u = "ORCHESTRATOR" then "orchestrator"
  else "supplier"

/-- Embeds agentToDisplay (src/web/app/registry/page.tsx, lines 70 to
92): the trust fields, dispute_rate among them, are copied from the
wire record with JavaScript or-else defaults; nothing is recomputed
from the transaction counters. -/
def agentToDisplay (agent : AgentTS) : DisplayAgentRec :=
  { id := agent.agent_id
    name := agent.name
    type := roleToType agent.role
    description := jsOrStr agent.description
      (agent.role ++ " agent for " ++ agent.region)
    capabilities := agent.capabilities.getD []
    regions := [agent.region]
    country := jsOrStr agent.country ""
    certifications := agent.certifications.getD []
    trustLevel := jsOrStr (agent.trust.map (fun t => t.trust_level))
      "self_declared"
    reputationScore := jsOrNum (agent.trust.map (fun t => t.reputation_score))
      (1/2)
    totalTransactions := jsOrNat (agent.trust.map (fun t => t.total_transactions)) 0
    successfulTransactions :=
      jsOrNat (agent.trust.map (fun t => t.successful_transactions)) 0
    disputeRate := jsOrNum (agent.trust.map (fun t => t.dispute_rate)) 0
    peerAttestations := jsOrNat (agent.trust.map (fun t => t.peer_attestations)) 0
    verified := (agent.trust.map (fun t => t.verified)).getD false
    responseTime :=
      match agent.avg_lead_time_days with
      | none => "< 5s"
      | some v => if v = 0 then "< 5s" else toString v ++ "d" }

/-- A trust profile with ten transactions, eight successful, and a
stored dispute rate of one tenth. -/
def c8Profile1 : TrustProfileTS := ⟨true, "peer_attested", 4/5, 10, 8, 1/10, 2⟩

/-- The same counters with a stored dispute rate of nine tenths. -/
def c8Profile2 : TrustProfileTS :=
  ⟨true, "peer_attested", 4/5, 10, 8, 9/10, 2⟩

/-- A wire agent carrying the first profile. -/
def c8Agent1 : AgentTS :=
  ⟨"sup-1", "TechParts Global", "SUPPLIER", none, "EU", none, none, none,
    none, some c8Profile1⟩

/-- The same wire agent carrying the second profile. -/
def c8Agent2 : AgentTS :=
  ⟨"sup-1", "TechParts Global", "SUPPLIER", none, "EU", none, none, none,
    none, some c8Profile2⟩

/-! ### Trust model (claim C4) -/

/-- Outcome of a settled transaction reported to the trust model. -/
inductive TrustOutcome
  | success | dispute | neutral
  deriving DecidableEq, Repr

/-- Modelled from the spec: the transaction counters of a trust profile
kept by the backend trust model (backend core/registry.py is not part
of the source tree). -/
structure TrustCounters where
  total : ℕ
  successful : ℕ
  disputes : ℕ
  deriving DecidableEq, Repr

/-- Modelled from the spec: the fixed Bayesian prior weight. -/
def priorWeight : ℚ := 5

/-- Modelled from the spec: reputation is the Bayesian-smoothed average
of the success counters, (successful + prior_weight * 0.5) divided by
(total + prior_weight), recomputed from the counters on every read. -/
def reputation (c : TrustCounters) : ℚ :=
  (c.successful + priorWeight * (1/2)) / (c.total + priorWeight)

/-- Modelled from the spec: a trust update increments the total counter
and, depending on the outcome, the successful or dispute counter. -/
def trustUpdate (c : TrustCounters) (o : TrustOutcome) : TrustCounters :=
  { total := c.total + 1
    successful := c.successful + (if o = TrustOutcome.success then 1 else 0)
    disputes := c.disputes + (if o = TrustOutcome.dispute then 1 else 0) }

/-- A fresh profile: no transactions yet. -/
def freshCounters : TrustCounters := ⟨0, 0, 0⟩

/-! ### Negotiation bandit (claim C5) -/

/-- Embeds the Supplier record of the web client (src/unnamed/part_001,
lines 43 to 48), which declares each supplier's max_discount_pct. -/
structure SupplierRec where
  name : String
  region : String
  max_discount_pct : ℚ
  catalog_items : List String
  deriving DecidableEq, Repr

/-- Modelled from the spec: the discount-ask arms for a supplier are
the five-point buckets 0, 5, 10, up to the supplier's declared
max_discount_pct (backend core/rl.py is not part of the source
tree). -/
def discountArms (maxd : ℚ) : List ℚ :=
  (List.range ((max 0 ⌊maxd / 5⌋).toNat + 1)).map (fun (i : ℕ) => 5 * (i : ℚ))

/-- Modelled from the spec: arm selection explores any untried arm
first, else exploits the arm with the best running average value.  The
tried counts and running averages abstract the learned per-supplier
statistics, so every possible interaction history is covered. -/
def pickArm (tried : ℚ → ℕ) (avg : ℚ → ℚ) (arms : List ℚ) : ℚ :=
  match arms.find? (fun a => tried a == 0) with
  | some a => a
  | none => arms.foldl (fun best a => if avg best < avg a then a else best) 0

/-- Modelled from the spec: suggest_ask proposes the selected arm but
never more than the supplier's declared max_discount_pct — the hard
business cap that overrides the learned policy. -/
def suggestAsk (s : SupplierRec) (tried : ℚ → ℕ) (avg : ℚ → ℚ) : ℚ :=
  min (pickArm tried avg (discountArms s.max_discount_pct)) s.max_discount_pct

/-- A concrete supplier for the C5 witness, with the ShenzhenTech cap
of 25 percent. -/
def c5Supplier : SupplierRec := ⟨"ShenzhenTech", "Asia", 25, []⟩

/-! ### Recommendation ranking (claim C1) -/

/-- Modelled from the spec: the compliance verdict attached to an
option, ordered passed before warning before failed. -/
inductive ComplianceStatus
  | passed | warning | failed
  deriving DecidableEq, Repr

/-- Rank of a compliance status inside the composite recommendation
key: passed before warning before failed. -/
def complianceRank : ComplianceStatus → ℕ
  | .passed => 0
  | .warning => 1
  | .failed => 2

/-- Modelled from the spec: one viable option of the final
recommendation — supplier id, item cost, shipping cost, delivery days
and compliance verdict (backend agents/orchestrator.py is not part of
the source tree). -/
structure RankedOption where
  supplier_id : String
  item_cost : ℚ
  shipping_cost : ℚ
  delivery_days : ℕ
  compliance : ComplianceStatus
  deriving DecidableEq, Repr

/-- Total landed cost of an option: item cost plus shipping. -/
def landedCost (o : RankedOption) : ℚ := o.item_cost + o.shipping_cost

/-- The composite ranking key: compliance rank, then total landed cost,
then delivery days, then supplier id compared character-wise, joined
lexicographically. -/
def optionKey (o : RankedOption) : ℕ ×ₗ (ℚ ×ₗ (ℕ ×ₗ List Char)) :=
  toLex (complianceRank o.compliance,
    toLex (landedCost o, toLex (o.delivery_days, o.supplier_id.data)))

/-- The composite order on options. -/
def optionLE (a b : RankedOption) : Prop := optionKey a ≤ optionKey b

instance : DecidableRel optionLE :=
  fun a b => inferInstanceAs (Decidable (optionKey a ≤ optionKey b))

instance : IsTotal RankedOption optionLE :=
  ⟨fun a b => le_total (optionKey a) (optionKey b)⟩

instance : IsTrans RankedOption optionLE :=
  ⟨fun _ _ _ h1 h2 => le_trans h1 h2⟩

/-- Modelled from the spec: the viable options sorted by the composite
key; a stable insertion sort realises the deterministic ranking. -/
def rankOptions (l : List RankedOption) : List RankedOption :=
  l.insertionSort optionLE

/-- The entry surfaced as recommended: the first option of the ranked
list. -/
def recommendedOf (l : List RankedOption) : Option RankedOption :=
  (rankOptions l).head?

/-- A passed option for the C1 witness. -/
def c1OptA : RankedOption := ⟨"droneparts-eu", 100, 10, 5, ComplianceStatus.passed⟩

/-- A failed option for the C1 witness. -/
def c1OptB : RankedOption := ⟨"shenzhen-asia", 50, 5, 3, ComplianceStatus.failed⟩

/-! ### Quote integrity (claim C7) -/

/-- A quote line item of the protocol types, modelled from the spec and
the SDK README (the SDK model code is not part of the source tree). -/
structure QuoteItem where
  part_name : String
  unit_price : ℚ
  quantity : ℕ
  total_price : ℚ
  lead_time_days : ℕ
  in_stock : Bool
  deriving DecidableEq, Repr

/-- A supplier quote: line items and the aggregate total. -/
structure Quote where
  supplier_id : String
  items : List QuoteItem
  total_cost : ℚ
  currency : String
  deriving DecidableEq, Repr

/-- The extended price a line item must carry: unit price times
quantity. -/
def extendedPrice (i : QuoteItem) : ℚ := i.unit_price * i.quantity

/-- Sum of the items' extended prices. -/
def sumExtended (items : List QuoteItem) : ℚ :=
  items.foldr (fun i acc => extendedPrice i + acc) 0

/-- Modelled from the spec: constructing a Quote validates the
integrity invariant — every item's total_price is its extended price
and the aggregate total is their sum; a violating quote is rejected as
a data-integrity error, not accepted as a business outcome. -/
def mkQuote (supplier : String) (items : List QuoteItem) (total : ℚ)
    (currency : String) : Except String Quote :=
  if (∀ i ∈ items, i.total_price = extendedPrice i) ∧ total = sumExtended items then
    Except.ok ⟨supplier, items, total, currency⟩
  else
    Except.error "quote total does not match its items"

/-- The line items of the C7 witness quote. -/
def c7Items : List QuoteItem := [⟨"esp32_mcu", 8, 2, 16, 3, true⟩]

/-- The C7 witness quote itself. -/
def c7Quote : Quote := ⟨"techparts", c7Items, 16, "EUR"⟩

/-! ### Orchestrator pipeline (claim C2) -/

/-- Modelled from the spec: the pipeline states of the orchestrator. -/
inductive RunState
  | INIT | DISCOVERY | NEGOTIATION | COMPLIANCE | LOGISTICS
  | RECOMMENDATION | DONE | FAILED
  deriving DecidableEq, Repr

/-- A step record of the run log: stage, actor, message, status. -/
structure StepRecord where
  phase : String
  agent : String
  message : String
  status : String
  deriving DecidableEq, Repr

/-- A bill-of-materials item. -/
structure BOMItem where
  part_name : String
  quantity : ℕ
  deriving DecidableEq, Repr

/-- A shipping estimate from the logistics collaborator. -/
structure ShippingEstimate where
  provider : String
  shipping_cost : ℚ
  total_days : ℕ
  deriving DecidableEq, Repr

/-- Modelled from the spec: the workflow run state the orchestrator
threads through one procurement execution (backend
agents/orchestrator.py is not part of the source tree). -/
structure WorkflowRun where
  state : RunState
  bom : List BOMItem
  candidates : List String
  quotes : List (String × Option Quote)
  compliance : Option ComplianceStatus
  options : List RankedOption
  recommended : Option RankedOption
  log : List StepRecord
  deriving Repr

/-- Modelled from the spec: one recommendation option assembled from a
supplier's quote and its shipping estimate; a missing estimate degrades
the option rather than dropping it. -/
def optionOf (verdict : ComplianceStatus) (sid : String) (q : Quote)
    (ship : Option ShippingEstimate) : RankedOption :=
  { supplier_id := sid
    item_cost := q.total_cost
    shipping_cost := (ship.map (fun e => e.shipping_cost)).getD 0
    delivery_days := (ship.map (fun e => e.total_days)).getD 0
    compliance := verdict }

/-- Modelled from the spec: the orchestrator pipeline as a total
function of its collaborators.  INIT obtains the BOM (fatal when absent
or empty, the only road to FAILED); DISCOVERY asks the registry — zero
candidates proceed straight to RECOMMENDATION with a logged
no-suppliers-found step and an empty options list; NEGOTIATION gathers
per-supplier quotes, failures logged and excluded; COMPLIANCE attaches
the verdict; LOGISTICS attaches shipping estimates; RECOMMENDATION
ranks with the composite key and the run completes in DONE. -/
def runWorkflow (bomResult : Option (List BOMItem)) (candidates : List String)
    (quoteOf : String → Option Quote) (verdict : ComplianceStatus)
    (shipOf : String → Option ShippingEstimate) : WorkflowRun :=
  match bomResult with
  | none =>
      { state := RunState.FAILED, bom := [], candidates := [], quotes := [],
        compliance := none, options := [], recommended := none,
        log := [⟨"init", "orchestrator", "BOM generation failed", "error"⟩] }
  | some bom =>
    if bom = [] then
      { state := RunState.FAILED, bom := [], candidates := [], quotes := [],
        compliance := none, options := [], recommended := none,
        log := [⟨"init", "orchestrator", "BOM generation failed", "error"⟩] }
    else
      let logInit : List StepRecord :=
        [⟨"init", "orchestrator", "BOM generated", "success"⟩]
      if candidates = [] then
        { state := RunState.DONE, bom := bom, candidates := [], quotes := [],
          compliance := none, options := [], recommended := none,
          log := logInit ++
            [⟨"discovery", "supplier-none", "no suppliers found", "warning"⟩,
             ⟨"recommendation", "orchestrator", "no viable options", "warning"⟩] }
      else
        let quotes := candidates.map (fun sid => (sid, quoteOf sid))
        let good := quotes.filterMap (fun p => p.2.map (fun q => (p.1, q)))
        let opts := good.map (fun p => optionOf verdict p.1 p.2 (shipOf p.1))
        let ranked := rankOptions opts
        { state := RunState.DONE, bom := bom, candidates := candidates,
          quotes := quotes, compliance := some verdict, options := ranked,
          recommended := ranked.head?,
          log := logInit ++
            [⟨"discovery", "orchestrator", "suppliers discovered", "success"⟩] ++
            quotes.map (fun p =>
              match p.2 with
              | some _ => ⟨"quoting", p.1, "quote received", "success"⟩
              | none => ⟨"quoting", p.1, "no quote", "error"⟩) ++
            [⟨"compliance", "compliance", "compliance checked", "success"⟩,
             ⟨"logistics", "logistics", "logistics planned", "success"⟩,
             ⟨"recommendation", "orchestrator", "recommendation ready", "success"⟩] }

/-- The three-item BOM of the C2 witness scenario. -/
def c2Bom : List BOMItem :=
  [⟨"frame", 1⟩, ⟨"motor", 4⟩, ⟨"flight_controller", 1⟩]

/-! ### Helper lemmas -/

lemma ids_updateAgent (i st th s) :
    ((updateAgent i st th s).agents.map (fun b => b.id)) =
      s.agents.map (fun b => b.id) := by
  simp only [updateAgent, List.map_map]
  refine List.map_congr_left fun a _ => ?_
  by_cases h : a.id = i <;> simp [h]

lemma ids_completeMark (s) :
    ((completeMark s).agents.map (fun b => b.id)) =
      s.agents.map (fun b => b.id) := by
  simp [completeMark, List.map_map, Function.comp]

lemma ids_idleMark (s) :
    ((idleMark s).agents.map (fun b => b.id)) =
      s.agents.map (fun b => b.id) := by
  simp [idleMark, List.map_map, Function.comp]

lemma coherent_addAgent {s} (a : FrontAgent) (hs : coherent s) :
    coherent (addAgent a s) := by
  obtain ⟨h1, h2, h3⟩ := hs
  by_cases hmem : a.id ∈ s.agents.map (fun b => b.id)
  · have hd : a.id ∈ s.discovered := (h3 a.id).1 hmem
    simpa [addAgent, hmem, hd] using ⟨h1, h2, h3⟩
  · have hd : a.id ∉ s.discovered := fun h => hmem ((h3 a.id).2 h)
    refine ⟨?_, ?_, ?_⟩
    · simp only [addAgent, if_neg hmem, if_neg hd, List.map_append,
        List.map_cons, List.map_nil]
      refine List.Nodup.append h1 (List.nodup_singleton _) ?_
      intro b hb hbx
      simp only [List.mem_singleton] at hbx
      exact hmem (hbx ▸ hb)
    · simp only [addAgent, if_neg hmem, if_neg hd]
      refine List.Nodup.append h2 (List.nodup_singleton _) ?_
      intro b hb hbx
      simp only [List.mem_singleton] at hbx
      exact hd (hbx ▸ hb)
    · intro i
      simp only [addAgent, if_neg hmem, if_neg hd, List.map_append,
        List.mem_append, List.map_cons, List.map_nil, List.mem_cons,
        List.mem_singleton, List.not_mem_nil, or_false]
      constructor
      · rintro (h | h)
        · exact Or.inl ((h3 i).1 h)
        · simpa using Or.inr h
      · rintro (h | h)
        · exact Or.inl ((h3 i).2 h)
        · simpa using Or.inr h

lemma coherent_of_reachable {s} (hs : Reachable s) : coherent s := by
  induction hs with
  | init => refine ⟨by decide, by decide, ?_⟩; intro i; simp [initialNetwork, orchestratorAgent]
  | runStart _ _ => refine ⟨by decide, by decide, ?_⟩; intro i; simp [runStartNetwork]
  | reset _ _ => refine ⟨by decide, by decide, ?_⟩; intro i; simp [initialNetwork, orchestratorAgent]
  | add a _ ih => exact coherent_addAgent a ih
  | update i st th _ ih =>
      obtain ⟨h1, h2, h3⟩ := ih
      exact ⟨by rw [ids_updateAgent]; exact h1, h2,
        fun j => by rw [ids_updateAgent]; exact h3 j⟩
  | complete _ ih =>
      obtain ⟨h1, h2, h3⟩ := ih
      exact ⟨by rw [ids_completeMark]; exact h1, h2,
        fun j => by rw [ids_completeMark]; exact h3 j⟩
  | idle _ ih =>
      obtain ⟨h1, h2, h3⟩ := ih
      exact ⟨by rw [ids_idleMark]; exact h1, h2,
        fun j => by rw [ids_idleMark]; exact h3 j⟩

lemma fireTimers_spec (n : ℕ) : ∀ s : ClientLoopState,
    (fireTimers n s).logs = s.logs ++ s.pending.take n ∧
    (fireTimers n s).pending = s.pending.drop n ∧
    (fireTimers n s).count = s.count := by
  induction n with
  | zero => intro s; simp [fireTimers]
  | succ n ih =>
      intro s
      cases hp : s.pending with
      | nil => simp [fireTimers, hp]
      | cons r ps =>
          obtain ⟨h1, h2, h3⟩ := ih ⟨s.logs ++ [r], ps, s.count⟩
          simp only [fireTimers, hp, List.take_succ_cons, List.drop_succ_cons]
          exact ⟨by rw [h1]; simp [List.append_assoc],
            by rw [h2], by rw [h3]⟩

lemma runClientLoop_spec (evs : List StreamEvent) :
    ∀ (sched : List ℕ) (s : ClientLoopState), ∃ t,
      (runClientLoop evs sched s).logs = s.logs ++ t ∧
      List.Sublist (s.pending ++ stepRecordsOf evs s.count) t := by
  induction evs with
  | nil =>
      intro sched s
      obtain ⟨h1, h2, h3⟩ := fireTimers_spec s.pending.length s
      refine ⟨s.pending, ?_, ?_⟩
      · show (fireTimers s.pending.length s).logs = _
        rw [h1, List.take_length]
      · simp [stepRecordsOf]
  | cons e rest ih =>
      intro sched s
      cases e with
      | step a p msg st d =>
          obtain ⟨hl, hpend, hcnt⟩ := fireTimers_spec (sched.headD 0)
            (handleEvent (StreamEvent.step a p msg st d) s)
          obtain ⟨t2, ht2, hsub⟩ := ih sched.tail
            (fireTimers (sched.headD 0) (handleEvent (StreamEvent.step a p msg st d) s))
          rw [hpend, hcnt] at hsub
          simp only [handleEvent] at hl hpend hcnt hsub
          refine ⟨(s.pending ++ [(stepLogRecord a msg st d s.count).1]).take
              (sched.headD 0) ++ t2, ?_, ?_⟩
          · show (runClientLoop rest sched.tail _).logs = _
            rw [ht2]
            simp only [handleEvent]
            rw [hl, List.append_assoc]
          · have h5 := hsub.append_left
              ((s.pending ++ [(stepLogRecord a msg st d s.count).1]).take (sched.headD 0))
            rw [← List.append_assoc, List.take_append_drop] at h5
            simpa [stepRecordsOf, List.append_assoc] using h5
      | complete r0 =>
          obtain ⟨hl, hpend, hcnt⟩ := fireTimers_spec (sched.headD 0)
            (handleEvent (StreamEvent.complete r0) s)
          obtain ⟨t2, ht2, hsub⟩ := ih sched.tail
            (fireTimers (sched.headD 0) (handleEvent (StreamEvent.complete r0) s))
          rw [hpend, hcnt] at hsub
          simp only [handleEvent] at hl hpend hcnt hsub
          refine ⟨bannerRecord :: (s.pending.take (sched.headD 0) ++ t2), ?_, ?_⟩
          · show (runClientLoop rest sched.tail _).logs = _
            rw [ht2]
            simp only [handleEvent]
            rw [hl]
            simp [List.append_assoc]
          · have h5 := hsub.append_left (s.pending.take (sched.headD 0))
            rw [← List.append_assoc, List.take_append_drop] at h5
            simpa [stepRecordsOf] using List.Sublist.cons bannerRecord h5
      | error m =>
          obtain ⟨hl, hpend, hcnt⟩ := fireTimers_spec (sched.headD 0)
            (handleEvent (StreamEvent.error m) s)
          obtain ⟨t2, ht2, hsub⟩ := ih sched.tail
            (fireTimers (sched.headD 0) (handleEvent (StreamEvent.error m) s))
          rw [hpend, hcnt] at hsub
          simp only [handleEvent] at hl hpend hcnt hsub
          refine ⟨s.pending.take (sched.headD 0) ++ t2, ?_, ?_⟩
          · show (runClientLoop rest sched.tail _).logs = _
            rw [ht2]
            simp only [handleEvent]
            rw [hl, List.append_assoc]
          · have h5 := hsub.append_left (s.pending.take (sched.headD 0))
            rw [← List.append_assoc, List.take_append_drop] at h5
            simpa [stepRecordsOf] using h5

lemma successful_le_total_foldl (l : List TrustOutcome) :
    ∀ c : TrustCounters, c.successful ≤ c.total →
      (l.foldl trustUpdate c).successful ≤ (l.foldl trustUpdate c).total := by
  induction l with
  | nil => exact fun _ h => h
  | cons o l ih =>
      intro c h
      refine ih _ ?_
      unfold trustUpdate
      by_cases ho : o = TrustOutcome.success <;> simp [ho] <;> omega

lemma reputation_nonneg_le_one (c : TrustCounters)
    (h : c.successful ≤ c.total) :
    0 ≤ reputation c ∧ reputation c ≤ 1 := by
  unfold reputation priorWeight
  have hden : (0:ℚ) < (c.total : ℚ) + 5 := by positivity
  constructor
  · apply div_nonneg _ (le_of_lt hden)
    positivity
  · rw [div_le_one hden]
    have hc : (c.successful : ℚ) ≤ (c.total : ℚ) := by exact_mod_cast h
    linarith

lemma discountArms_nonneg (maxd : ℚ) : ∀ a ∈ discountArms maxd, 0 ≤ a := by
  intro a ha
  unfold discountArms at ha
  obtain ⟨i, -, rfl⟩ := List.mem_map.1 ha
  have hi : (0:ℚ) ≤ (i:ℚ) := Nat.cast_nonneg i
  linarith

lemma pickArm_nonneg (tried : ℚ → ℕ) (avg : ℚ → ℚ) (arms : List ℚ)
    (h : ∀ a ∈ arms, 0 ≤ a) : 0 ≤ pickArm tried avg arms := by
  unfold pickArm
  cases hf : arms.find? (fun a => tried a == 0) with
  | some a => exact h a (List.mem_of_find?_eq_some hf)
  | none =>
      have key : ∀ (l : List ℚ) (b : ℚ), 0 ≤ b → (∀ a ∈ l, 0 ≤ a) →
          0 ≤ l.foldl (fun best a => if avg best < avg a then a else best) b := by
        intro l
        induction l with
        | nil => exact fun _ hb _ => hb
        | cons x l ih =>
            intro b hb hl
            simp only [List.foldl_cons]
            by_cases hx : avg b < avg x
            · simp only [if_pos hx]
              exact ih _ (hl x (by simp)) (fun a ha => hl a (by simp [ha]))
            · simp only [if_neg hx]
              exact ih _ hb (fun a ha => hl a (by simp [ha]))
      exact key arms 0 le_rfl h

lemma optionLE_iff (a b : RankedOption) :
    optionLE a b ↔
      complianceRank a.compliance < complianceRank b.compliance ∨
      (complianceRank a.compliance = complianceRank b.compliance ∧
        (landedCost a < landedCost b ∨
          (landedCost a = landedCost b ∧
            (a.delivery_days < b.delivery_days ∨
              (a.delivery_days = b.delivery_days ∧
                a.supplier_id.data ≤ b.supplier_id.data))))) := by
  simp only [optionLE, optionKey, Prod.Lex.le_iff]

/-! ### Claim theorems for the claims -/

/-- C9: when the backend compliance_status contains none of warning,
review, fail or block (case-insensitively — the handler lower-cases the
status before testing), or when the status is absent, the surfaced
compliance verdict is passed: unrecognized statuses fail open to
passed, not to warning or failed. -/
theorem c9_unrecognized_status_fails_open (st : String)
    (h1 : strIncludes (lowerStr st) "warning" = false)
    (h2 : strIncludes (lowerStr st) "review" = false)
    (h3 : strIncludes (lowerStr st) "fail" = false)
    (h4 : strIncludes (lowerStr st) "block" = false) :
    complianceVerdict (some st) = "passed" ∧ complianceVerdict none = "passed" := by
  refine ⟨?_, rfl⟩
  simp [complianceVerdict, h1, h2, h3, h4]

/-- Witness for C9 at the concrete backend status OK. -/
theorem c9_witness :
    strIncludes (lowerStr "OK") "warning" = false ∧
    complianceVerdict (some "OK") = "passed" :=
  ⟨by decide,
    (c9_unrecognized_status_fails_open "OK" (by decide) (by decide)
      (by decide) (by decide)).1⟩

/-- C10: on every state the web client can reach, adding an agent whose
id is already in the agents list changes neither the agents list nor
the discovered set, and after any addAgent call the agent ids remain
duplicate free, so the network never holds two agents with one id. -/
theorem c10_addAgent_idempotent (s : NetworkState) (a : FrontAgent)
    (hs : Reachable s) (hmem : a.id ∈ s.agents.map (fun b => b.id)) :
    addAgent a s = s ∧
    ((addAgent a s).agents.map (fun b => b.id)).Nodup := by
  obtain ⟨hnd, _, hiff⟩ := coherent_of_reachable hs
  have hd : a.id ∈ s.discovered := (hiff a.id).1 hmem
  have he : addAgent a s = s := by simp [addAgent, hmem, hd]
  exact ⟨he, by rw [he]; exact hnd⟩

/-- Witness for C10: re-adding the orchestrator to the initial network
leaves the state unchanged. -/
theorem c10_witness :
    orchestratorAgent.id ∈ initialNetwork.agents.map (fun b => b.id) ∧
    addAgent orchestratorAgent initialNetwork = initialNetwork :=
  ⟨by decide,
    (c10_addAgent_idempotent initialNetwork orchestratorAgent
      Reachable.init (by decide)).1⟩

/-- C3: the completion handler populates the displayed total from the
best option's shipping_cost, not from its total landed cost.  On a
backend recommendation whose best option has total_cost 105 and
shipping_cost 12, the card shows total 12, equal to the shipping cost
and different from the option's total landed cost — the code slip the
claim rules out. -/
theorem c3_total_displays_shipping_cost :
    c3Option.total_cost = 105 ∧ c3Option.shipping_cost = 12 ∧
    (setRecommendationOf c3Rec).total = 12 ∧
    (setRecommendationOf c3Rec).shipping = 12 ∧
    (setRecommendationOf c3Rec).total ≠ c3Option.total_cost := by
  refine ⟨rfl, rfl, by decide, by decide, by decide⟩

/-- Counterexample to C6 as stated: an SSE error event does not end the
stream processing — its throw lands in the inner parse catch
(src/unnamed/part_000, line 293), which only writes to the console.  On
the concrete stream made of an error event and then a step event, the
later step event is still processed and its record reaches the log, and
no error record is ever appended for the error event. -/
theorem c6_counterexample :
    (runClientLoop c6BadStream [0, 0] initialLoopState).logs =
      [⟨"Logistics Agent", "Planning route", "success", none⟩] ∧
    ∀ r ∈ (runClientLoop c6BadStream [0, 0] initialLoopState).logs,
      r.type ≠ "error" ∧ r.message ≠ "Error: boom" :=
  ⟨by decide, by decide⟩

/-- C6 amended: for every streaming call, every event stream and every
schedule of the deferred-log timers, the prior log only ever grows —
entries are never mutated or removed — and the deferred step-log
records appear in the final log in their causal emission order, as a
sublist (the synchronously appended completion banner may precede
deferred step entries); an SSE error event appends no log record and
does not end processing, which continues with the following events. -/
theorem c6_stream_log_amended (evs rest : List StreamEvent) (m : String)
    (sched sched2 : List ℕ) (s : ClientLoopState) (hp : s.pending = []) :
    (∃ t, (runClientLoop evs sched s).logs = s.logs ++ t ∧
      List.Sublist (stepRecordsOf evs s.count) t) ∧
    runClientLoop (StreamEvent.error m :: rest) (0 :: sched2) s =
      runClientLoop rest sched2 s := by
  constructor
  · obtain ⟨t, h1, h2⟩ := runClientLoop_spec evs sched s
    rw [hp, List.nil_append] at h2
    exact ⟨t, h1, h2⟩
  · rfl

/-- Witness for the amended C6 statement: the concrete two-step stream
from the initial state, with one timer firing inside the run, and an
error event prepended to it being a no-op. -/
theorem c6_witness :
    initialLoopState.pending = [] ∧
    (∃ t, (runClientLoop c6GoodStream [1, 0, 0] initialLoopState).logs =
        initialLoopState.logs ++ t ∧
      List.Sublist (stepRecordsOf c6GoodStream initialLoopState.count) t) ∧
    runClientLoop (StreamEvent.error "oops" :: c6GoodStream)
        (0 :: [1, 0, 0]) initialLoopState =
      runClientLoop c6GoodStream [1, 0, 0] initialLoopState := by
  have h := c6_stream_log_amended c6GoodStream c6GoodStream "oops" [1, 0, 0]
    [1, 0, 0] initialLoopState rfl
  exact ⟨rfl, h.1, h.2⟩

/-- C4: for every finite sequence of trust updates applied to a fresh
profile, the recomputed reputation equals the Bayesian-smoothed
average (successful + prior_weight * 0.5) / (total + prior_weight), it
always lies in the unit interval, and an agent with zero transactions
scores exactly one half. -/
theorem c4_reputation_bayesian (outcomes : List TrustOutcome) :
    reputation (outcomes.foldl trustUpdate freshCounters) =
      (((outcomes.foldl trustUpdate freshCounters).successful : ℚ) +
          priorWeight * (1/2)) /
        (((outcomes.foldl trustUpdate freshCounters).total : ℚ) + priorWeight) ∧
    0 ≤ reputation (outcomes.foldl trustUpdate freshCounters) ∧
    reputation (outcomes.foldl trustUpdate freshCounters) ≤ 1 ∧
    reputation freshCounters = 1/2 := by
  have hst := successful_le_total_foldl outcomes freshCounters
    (by simp [freshCounters])
  obtain ⟨h1, h2⟩ := reputation_nonneg_le_one _ hst
  refine ⟨rfl, h1, h2, ?_⟩
  norm_num [reputation, priorWeight, freshCounters]

/-- C5: for every supplier with a nonnegative declared cap and every
learned per-supplier statistics (hence every interaction history), the
suggested discount ask is never negative and never exceeds the
supplier's declared max_discount_pct. -/
theorem c5_suggest_ask_capped (s : SupplierRec) (tried : ℚ → ℕ)
    (avg : ℚ → ℚ) (hmax : 0 ≤ s.max_discount_pct) :
    0 ≤ suggestAsk s tried avg ∧
    suggestAsk s tried avg ≤ s.max_discount_pct := by
  unfold suggestAsk
  exact ⟨le_min (pickArm_nonneg _ _ _ (discountArms_nonneg _)) hmax,
    min_le_right _ _⟩

/-- Witness for C5 at the ShenzhenTech supplier and fresh statistics. -/
theorem c5_witness :
    0 ≤ c5Supplier.max_discount_pct ∧
    (0 ≤ suggestAsk c5Supplier (fun _ => 0) (fun _ => 0) ∧
      suggestAsk c5Supplier (fun _ => 0) (fun _ => 0) ≤
        c5Supplier.max_discount_pct) :=
  ⟨by decide, c5_suggest_ask_capped c5Supplier (fun _ => 0) (fun _ => 0)
    (by decide)⟩

/-- Counterexample to C8 as stated: two wire trust profiles identical
on every transaction counter but with different stored dispute_rate
values display different dispute rates, so the surfaced dispute rate is
not recomputed from the counters — it is an independently stored field
that can drift from them, and the wire record carries no disputes
counter to recompute it from at all. -/
theorem c8_counterexample :
    c8Profile1.total_transactions = c8Profile2.total_transactions ∧
    c8Profile1.successful_transactions = c8Profile2.successful_transactions ∧
    c8Profile1.peer_attestations = c8Profile2.peer_attestations ∧
    (agentToDisplay c8Agent1).disputeRate ≠
      (agentToDisplay c8Agent2).disputeRate := by
  refine ⟨rfl, rfl, rfl, ?_⟩
  norm_num [agentToDisplay, c8Agent1, c8Agent2, c8Profile1, c8Profile2,
    jsOrNum]

/-- C8 amended: the web client surfaces the stored dispute_rate field
unchanged whenever a trust profile is present and its stored rate is
not zero, and surfaces 0 when the profile is absent; it never
recomputes the rate from the transaction counters. -/
theorem c8_dispute_rate_is_stored (a b : AgentTS) (p : TrustProfileTS)
    (hp : a.trust = some p) (hnz : p.dispute_rate ≠ 0)
    (hb : b.trust = none) :
    (agentToDisplay a).disputeRate = p.dispute_rate ∧
    (agentToDisplay b).disputeRate = 0 := by
  constructor
  · simp [agentToDisplay, hp, jsOrNum, hnz]
  · simp [agentToDisplay, hb, jsOrNum]

/-- Witness for the amended C8 statement at the concrete profile. -/
theorem c8_witness :
    c8Agent1.trust = some c8Profile1 ∧ c8Profile1.dispute_rate ≠ 0 ∧
    (agentToDisplay c8Agent1).disputeRate = c8Profile1.dispute_rate := by
  refine ⟨rfl, by norm_num [c8Profile1], ?_⟩
  exact (c8_dispute_rate_is_stored c8Agent1
    { c8Agent1 with trust := none } c8Profile1 rfl
    (by norm_num [c8Profile1]) rfl).1

/-- C1: the composite recommendation order is total, transitive and
antisymmetric down to the ranking key; it compares compliance first
(passed before warning before failed), then total landed cost
ascending, then delivery days ascending, then supplier id ascending;
rankOptions sorts every option list by it while keeping exactly the
input options; and the entry surfaced as recommended is the first
option of the ranked list, below every option of the run. -/
theorem c1_recommendation_total_order :
    (∀ a b : RankedOption, optionLE a b ∨ optionLE b a) ∧
    (∀ a b c : RankedOption, optionLE a b → optionLE b c → optionLE a c) ∧
    (∀ a b : RankedOption, optionLE a b → optionLE b a →
      optionKey a = optionKey b) ∧
    (∀ a b : RankedOption,
      complianceRank a.compliance < complianceRank b.compliance →
      optionLE a b ∧ ¬ optionLE b a) ∧
    (∀ a b : RankedOption, a.compliance = b.compliance →
      landedCost a < landedCost b → optionLE a b ∧ ¬ optionLE b a) ∧
    (∀ a b : RankedOption, a.compliance = b.compliance →
      landedCost a = landedCost b → a.delivery_days < b.delivery_days →
      optionLE a b ∧ ¬ optionLE b a) ∧
    (∀ a b : RankedOption, a.compliance = b.compliance →
      landedCost a = landedCost b → a.delivery_days = b.delivery_days →
      (optionLE a b ↔ a.supplier_id.data ≤ b.supplier_id.data)) ∧
    (∀ l, (rankOptions l).Sorted optionLE ∧ (rankOptions l).Perm l) ∧
    (∀ l r rest, rankOptions l = r :: rest →
      recommendedOf l = some r ∧ ∀ o ∈ l, optionLE r o) := by
  refine ⟨fun a b => le_total (optionKey a) (optionKey b),
    fun a b c h1 h2 => le_trans h1 h2,
    fun a b h1 h2 => le_antisymm h1 h2, ?_, ?_, ?_, ?_, ?_, ?_⟩
  · intro a b h
    constructor
    · exact (optionLE_iff a b).2 (Or.inl h)
    · intro hba
      rcases (optionLE_iff b a).1 hba with h2 | ⟨h2, _⟩ <;> omega
  · intro a b hc h
    have hcr : complianceRank a.compliance = complianceRank b.compliance := by
      rw [hc]
    constructor
    · exact (optionLE_iff a b).2 (Or.inr ⟨hcr, Or.inl h⟩)
    · intro hba
      rcases (optionLE_iff b a).1 hba with h2 | ⟨_, h3 | ⟨h3, _⟩⟩
      · omega
      · linarith
      · linarith
  · intro a b hc hcost h
    have hcr : complianceRank a.compliance = complianceRank b.compliance := by
      rw [hc]
    constructor
    · exact (optionLE_iff a b).2 (Or.inr ⟨hcr, Or.inr ⟨hcost, Or.inl h⟩⟩)
    · intro hba
      rcases (optionLE_iff b a).1 hba with h2 | ⟨_, h3 | ⟨_, h4 | ⟨h4, _⟩⟩⟩
      · omega
      · linarith
      · omega
      · omega
  · intro a b hc hcost hdays
    have hcr : complianceRank a.compliance = complianceRank b.compliance := by
      rw [hc]
    rw [optionLE_iff]
    simp [hcr, hcost, hdays, lt_self_iff_false]
  · intro l
    exact ⟨List.sorted_insertionSort optionLE l,
      List.perm_insertionSort optionLE l⟩
  · intro l r rest h
    have hsort := List.sorted_insertionSort optionLE l
    have hperm := List.perm_insertionSort optionLE l
    rw [show l.insertionSort optionLE = rankOptions l from rfl, h] at hsort hperm
    refine ⟨by simp [recommendedOf, h], ?_⟩
    intro o ho
    have hmem : o ∈ r :: rest := hperm.mem_iff.2 ho
    rcases List.mem_cons.1 hmem with rfl | hm
    · exact le_refl (optionKey o)
    · exact List.rel_of_sorted_cons hsort o hm

/-- Witness for C1: a passed option ranks strictly below a failed one
regardless of cost. -/
theorem c1_witness :
    complianceRank c1OptA.compliance < complianceRank c1OptB.compliance ∧
    optionLE c1OptA c1OptB ∧ ¬ optionLE c1OptB c1OptA := by
  have h := c1_recommendation_total_order.2.2.2.1 c1OptA c1OptB (by decide)
  exact ⟨by decide, h.1, h.2⟩

/-- C7: a quote accepted by the validating constructor satisfies the
integrity invariant — its aggregate total is the sum over its items of
unit price times quantity, every item carrying its extended price —
while a quote whose total differs from that sum is rejected as a
data-integrity error, not accepted as a business outcome. -/
theorem c7_quote_integrity (s : String) (items : List QuoteItem)
    (total : ℚ) (cur : String) :
    (∀ q, mkQuote s items total cur = Except.ok q →
      q.total_cost = sumExtended q.items ∧
      ∀ i ∈ q.items, i.total_price = extendedPrice i) ∧
    (total ≠ sumExtended items →
      ∃ e, mkQuote s items total cur = Except.error e) := by
  constructor
  · intro q hq
    unfold mkQuote at hq
    by_cases hcond : (∀ i ∈ items, i.total_price = extendedPrice i) ∧
        total = sumExtended items
    · rw [if_pos hcond] at hq
      cases hq
      exact ⟨hcond.2, hcond.1⟩
    · rw [if_neg hcond] at hq
      cases hq
  · intro hne
    unfold mkQuote
    rw [if_neg (fun hcond => hne hcond.2)]
    exact ⟨_, rfl⟩

/-- Witness for C7: the concrete one-line quote is accepted and
satisfies the invariant, while the same items with total 20 are
rejected. -/
theorem c7_witness :
    c7Quote.total_cost = sumExtended c7Quote.items ∧
    (∃ e, mkQuote "techparts" c7Items 20 "EUR" = Except.error e) := by
  have hok : mkQuote "techparts" c7Items 16 "EUR" = Except.ok c7Quote := by
    unfold mkQuote
    rw [if_pos]
    · rfl
    · constructor
      · intro i hi
        simp only [c7Items, List.mem_singleton] at hi
        subst hi
        norm_num [extendedPrice]
      · norm_num [c7Items, sumExtended, extendedPrice]
  refine ⟨((c7_quote_integrity "techparts" c7Items 16 "EUR").1 c7Quote hok).1, ?_⟩
  exact (c7_quote_integrity "techparts" c7Items 20 "EUR").2
    (by norm_num [c7Items, sumExtended, extendedPrice])

/-- C2: with a nonempty BOM and zero discovered suppliers the run still
completes in DONE — never FAILED, and the pipeline is a total function,
so no exception is raised — with an empty recommendation options list
and a logged no-suppliers-found step; the web client maps the
supplier-none actor of that step to a No Suppliers node instead of
erroring. -/
theorem c2_no_suppliers_done (bom : List BOMItem)
    (quoteOf : String → Option Quote) (verdict : ComplianceStatus)
    (shipOf : String → Option ShippingEstimate) (hbom : bom ≠ []) :
    (runWorkflow (some bom) [] quoteOf verdict shipOf).state = RunState.DONE ∧
    (runWorkflow (some bom) [] quoteOf verdict shipOf).state ≠ RunState.FAILED ∧
    (runWorkflow (some bom) [] quoteOf verdict shipOf).options = [] ∧
    (∃ e ∈ (runWorkflow (some bom) [] quoteOf verdict shipOf).log,
      e.message = "no suppliers found") ∧
    getAgentInfo "supplier-none" 0 =
      (⟨"supplier-none", "supplier", "No Suppliers"⟩, 0) := by
  have hrun : runWorkflow (some bom) [] quoteOf verdict shipOf =
      { state := RunState.DONE, bom := bom, candidates := [], quotes := [],
        compliance := none, options := [], recommended := none,
        log := [⟨"init", "orchestrator", "BOM generated", "success"⟩,
          ⟨"discovery", "supplier-none", "no suppliers found", "warning"⟩,
          ⟨"recommendation", "orchestrator", "no viable options",
            "warning"⟩] } := by
    simp only [runWorkflow, if_neg hbom, if_pos rfl]
    rfl
  refine ⟨by rw [hrun], by rw [hrun]; simp, by rw [hrun], ?_, by decide⟩
  rw [hrun]
  exact ⟨⟨"discovery", "supplier-none", "no suppliers found", "warning"⟩,
    by simp, rfl⟩

/-- Witness for C2 at the three-item BOM of the spec scenario. -/
theorem c2_witness :
    c2Bom ≠ [] ∧
    (runWorkflow (some c2Bom) [] (fun _ => none) ComplianceStatus.passed
        (fun _ => none)).state = RunState.DONE ∧
    (runWorkflow (some c2Bom) [] (fun _ => none) ComplianceStatus.passed
        (fun _ => none)).options = [] := by
  have h := c2_no_suppliers_done c2Bom (fun _ => none)
    ComplianceStatus.passed (fun _ => none) (by decide)
  exact ⟨by decide, h.1, h.2.2.1⟩

end Mura
